import Mathlib

/-!
Shallow embedding of chaincode/contract-tutorial/simple-contract.go.

The contract manages three JSON-serialized entity types (Patient, Proposal,
Result) in the Fabric world state (a key-value ledger reached through
GetState/PutState on the transaction stub), and calls two external crypto
functions from the phe package (MeanFromString, KeyUpdateFromString), which
take and return plain strings.

Modelling choices:
- The world state plus the stub's possible read/write failures are a `Stub`:
  a table from keys to stored bytes, and per-key optional error messages for
  GetState and PutState (Go's GetState/PutState return an error value).
- Stored bytes are modelled by `LBytes`: either the JSON encoding of one of
  the three entities, or raw bytes that do not parse as JSON.  Unmarshalling
  follows encoding/json: decoding the JSON of one entity type into another
  succeeds and fills exactly the fields whose JSON tags coincide; decoding
  raw non-JSON bytes reports an error and leaves the target zero-valued.
  The Go code discards the Unmarshal error (`_ = json.Unmarshal`), which the
  `decode…` functions below reproduce.
- Errors built by the contract with fmt.Errorf are the constructors of
  `CCErr`; `CCErr.message` renders the exact Go format strings.
- The external phe calls have no error return in Go, so they are embedded as
  plain function parameters `mean : String → List String → String` and
  `keyUpdate : String → String → String → String → String`.
- Mutating operations are `Stub → Except CCErr Stub`: Go returns an error
  and the only state mutation is a successful PutState, which in every
  operation is the final statement.
-/

namespace SimpleContract

/-- Patient struct: JSON tags name, preExistingConditions, diagnosisID,
statusID, keyID. -/
structure Patient where
  name : String
  preExistingConditions : String
  diagnosisID : String
  statusID : String
  keyID : String
deriving DecidableEq

/-- Proposal struct: JSON tags requesterID, requestedID, patientsIDs, keyID,
value. -/
structure Proposal where
  requesterID : String
  requestedID : String
  patientsIDs : String
  keyID : String
  value : String
deriving DecidableEq

/-- Result struct: JSON tags proposalID, keyID, value. -/
structure Result where
  proposalID : String
  keyID : String
  value : String
deriving DecidableEq

/-- Go zero value of Patient, as produced by new(Patient). -/
def Patient.zero : Patient := ⟨"", "", "", "", ""⟩

/-- Go zero value of Proposal. -/
def Proposal.zero : Proposal := ⟨"", "", "", "", ""⟩

/-- Go zero value of Result. -/
def Result.zero : Result := ⟨"", "", ""⟩

/-- Bytes stored in the world state: the JSON encoding of one of the three
entities, or raw bytes that are not valid JSON. -/
inductive LBytes where
  | patientB : Patient → LBytes
  | proposalB : Proposal → LBytes
  | resultB : Result → LBytes
  | rawB : String → LBytes
deriving DecidableEq

/-- json.Unmarshal into a Patient.  JSON of another entity type decodes
without error, filling only the fields whose tags overlap (keyID is the one
tag Patient shares with Proposal and Result); raw non-JSON bytes yield an
error. -/
def unmarshalPatientE : LBytes → Except String Patient
  | .patientB p => .ok p
  | .proposalB pr => .ok { Patient.zero with keyID := pr.keyID }
  | .resultB r => .ok { Patient.zero with keyID := r.keyID }
  | .rawB s => .error s

/-- json.Unmarshal into a Proposal (shared tags with Result: keyID, value;
with Patient: keyID). -/
def unmarshalProposalE : LBytes → Except String Proposal
  | .proposalB pr => .ok pr
  | .patientB p => .ok { Proposal.zero with keyID := p.keyID }
  | .resultB r => .ok { Proposal.zero with keyID := r.keyID, value := r.value }
  | .rawB s => .error s

/-- json.Unmarshal into a Result (shared tags with Proposal: keyID, value;
with Patient: keyID). -/
def unmarshalResultE : LBytes → Except String Result
  | .resultB r => .ok r
  | .patientB p => .ok { Result.zero with keyID := p.keyID }
  | .proposalB pr => .ok { Result.zero with keyID := pr.keyID, value := pr.value }
  | .rawB s => .error s

/-- The pattern `p := new(Patient); _ = json.Unmarshal(bytes, p)`: the
Unmarshal error is discarded, so a failed decode leaves the zero value. -/
def decodePatient (b : LBytes) : Patient :=
  match unmarshalPatientE b with
  | .ok p => p
  | .error _ => Patient.zero

/-- Decode-ignoring-error for Proposal, as in FindProposal. -/
def decodeProposal (b : LBytes) : Proposal :=
  match unmarshalProposalE b with
  | .ok p => p
  | .error _ => Proposal.zero

/-- Decode-ignoring-error for Result, as in FindResult. -/
def decodeResult (b : LBytes) : Result :=
  match unmarshalResultE b with
  | .ok r => r
  | .error _ => Result.zero

/-- The transaction stub's world state: the key-value table plus per-key
failure behaviour of GetState and PutState (both return a Go error). -/
structure Stub where
  table : String → Option LBytes
  getErr : String → Option String
  putErr : String → Option String

/-- Errors the contract can return, one constructor per fmt.Errorf call site
plus the PutState error returned verbatim. -/
inductive CCErr where
  | worldRead : String → CCErr
  | notFound : String → CCErr
  | putFailed : String → CCErr
deriving DecidableEq

/-- The exact Go error strings. -/
def CCErr.message : CCErr → String
  | .worldRead m => "Failed to read from world state. " ++ m
  | .notFound id => id ++ " does not exist"
  | .putFailed m => m

/-- ctx.GetStub().PutState(k, v): on success the table maps k to v and all
other keys are unchanged. -/
def putState (st : Stub) (k : String) (v : LBytes) : Except String Stub :=
  match st.putErr k with
  | some m => .error m
  | none => .ok { st with table := fun q => if q = k then some v else st.table q }

/-- The table update performed by a successful PutState. -/
def stubPut (st : Stub) (k : String) (v : LBytes) : Stub :=
  { st with table := fun q => if q = k then some v else st.table q }

/-- strings.Split(s, ",") on the character list: splitting on a single
comma, where the empty string yields one empty field. -/
def splitChars : List Char → List (List Char)
  | [] => [[]]
  | c :: cs =>
    match splitChars cs with
    | [] => if c = ',' then [[], []] else [[c]]
    | g :: gs => if c = ',' then [] :: g :: gs else (c :: g) :: gs

/-- strings.Split(s, ","). -/
def splitComma (s : String) : List String :=
  (splitChars s.data).map List.asString

/-- takeWhile isDigit, the continuation of a digit run. -/
def takeDigits : List Char → List Char
  | [] => []
  | c :: cs => if c.isDigit then c :: takeDigits cs else []

/-- Leftmost maximal run of decimal digits, the semantics of
regexp.MustCompile of the pattern one-or-more-digits applied with Find. -/
def firstRun : List Char → List Char
  | [] => []
  | c :: cs => if c.isDigit then c :: takeDigits cs else firstRun cs

/-- string(re.Find([]byte(s))) for the digit-run pattern; empty when there is
no digit (Find returns nil and string(nil) is ""). -/
def firstDigitRun (s : String) : String :=
  (firstRun s.data).asString

/-- CreatePatient: marshal the Patient built from the arguments and PutState
it at id.  No existence check. -/
def createPatient (st : Stub) (id name pre diag status keyID : String) :
    Except CCErr Stub :=
  (putState st id (.patientB ⟨name, pre, diag, status, keyID⟩)).mapError .putFailed

/-- FindPatient: GetState, wrap a read error, report a missing key, then
unmarshal with the error discarded. -/
def findPatient (st : Stub) (id : String) : Except CCErr Patient :=
  match st.getErr id with
  | some m => .error (.worldRead m)
  | none =>
    match st.table id with
    | none => .error (.notFound id)
    | some b => .ok (decodePatient b)

/-- UpdatePatient: FindPatient, then overwrite every field of the found
struct with the arguments and PutState the marshalled struct at id; since
every field is replaced, the stored bytes depend only on the arguments. -/
def updatePatient (st : Stub) (id name pre diag status keyID : String) :
    Except CCErr Stub :=
  match findPatient st id with
  | .error e => .error e
  | .ok _ =>
    (putState st id (.patientB ⟨name, pre, diag, status, keyID⟩)).mapError .putFailed

/-- The fan-in loop of CreateProposal: FindPatient each id in order,
returning the first error, else the list of PreExistingConditions fields in
input order. -/
def resolveConditions (st : Stub) : List String → Except CCErr (List String)
  | [] => .ok []
  | pid :: rest =>
    match findPatient st pid with
    | .error e => .error e
    | .ok p =>
      match resolveConditions st rest with
      | .error e => .error e
      | .ok ms => .ok (p.preExistingConditions :: ms)

/-- CreateProposal: split patientsIDs on commas, resolve each patient
(first failure aborts), call phe.MeanFromString on the modulus and the
collected conditions, store the Proposal (with the mean as Value) at id. -/
def createProposal (mean : String → List String → String) (st : Stub)
    (id requesterID requestedID patientsIDs keyID modulo : String) :
    Except CCErr Stub :=
  match resolveConditions st (splitComma patientsIDs) with
  | .error e => .error e
  | .ok ms =>
    (putState st id
      (.proposalB ⟨requesterID, requestedID, patientsIDs, keyID, mean modulo ms⟩)).mapError
      .putFailed

/-- FindProposal: same shape as FindPatient. -/
def findProposal (st : Stub) (id : String) : Except CCErr Proposal :=
  match st.getErr id with
  | some m => .error (.worldRead m)
  | none =>
    match st.table id with
    | none => .error (.notFound id)
    | some b => .ok (decodeProposal b)

/-- CreateResult: FindProposal, call phe.KeyUpdateFromString on the modulus,
the two tokens and the proposal's Value, and store the Result at the id
"RESULT" followed by the first digit run of proposalID. -/
def createResult (keyUpdate : String → String → String → String → String)
    (st : Stub) (proposalID firstToken secondToken keyID modulo : String) :
    Except CCErr Stub :=
  match findProposal st proposalID with
  | .error e => .error e
  | .ok proposal =>
    (putState st ("RESULT" ++ firstDigitRun proposalID)
      (.resultB ⟨proposalID, keyID, keyUpdate modulo firstToken secondToken proposal.value⟩)).mapError
      .putFailed

/-- FindResult: same shape as FindPatient. -/
def findResult (st : Stub) (id : String) : Except CCErr Result :=
  match st.getErr id with
  | some m => .error (.worldRead m)
  | none =>
    match st.table id with
    | none => .error (.notFound id)
    | some b => .ok (decodeResult b)

/-- The world state visible after a call: the new stub on success, the old
one when the call returned an error before any successful PutState. -/
def ledgerAfter (r : Except CCErr Stub) (st : Stub) : Stub :=
  match r with
  | .ok st' => st'
  | .error _ => st

/-- A stub with an empty world state and no read/write failures. -/
def emptyStub : Stub :=
  ⟨fun _ => none, fun _ => none, fun _ => none⟩

/-- A stub whose world state holds exactly the given key-value pairs, with no
read/write failures. -/
def stubOf (l : List (String × LBytes)) : Stub :=
  ⟨fun k => (l.find? fun e => e.1 == k).map Prod.snd, fun _ => none, fun _ => none⟩

lemma putState_of_none {st : Stub} {k : String} (v : LBytes)
    (h : st.putErr k = none) : putState st k v = .ok (stubPut st k v) := by
  simp [putState, stubPut, h]

lemma stubPut_table_self (st : Stub) (k : String) (v : LBytes) :
    (stubPut st k v).table k = some v := by
  simp [stubPut]

lemma stubPut_table_ne {q k : String} (st : Stub) (v : LBytes) (h : q ≠ k) :
    (stubPut st k v).table q = st.table q := by
  simp [stubPut, h]

lemma createPatient_frame {q id : String} (st : Stub)
    (name pre diag status keyID : String) (h : q ≠ id) :
    (ledgerAfter (createPatient st id name pre diag status keyID) st).table q =
      st.table q := by
  unfold createPatient
  cases hp : st.putErr id with
  | some m => simp [putState, hp, Except.mapError, ledgerAfter]
  | none => simp [putState, hp, Except.mapError, ledgerAfter, stubPut, h]

lemma updatePatient_frame {q id : String} (st : Stub)
    (name pre diag status keyID : String) (h : q ≠ id) :
    (ledgerAfter (updatePatient st id name pre diag status keyID) st).table q =
      st.table q := by
  unfold updatePatient
  cases hf : findPatient st id with
  | error e => simp [ledgerAfter]
  | ok p =>
    cases hp : st.putErr id with
    | some m => simp [putState, hp, Except.mapError, ledgerAfter]
    | none => simp [putState, hp, Except.mapError, ledgerAfter, stubPut, h]

lemma createProposal_frame {q id : String}
    (mean : String → List String → String) (st : Stub)
    (requesterID requestedID patientsIDs keyID modulo : String) (h : q ≠ id) :
    (ledgerAfter
      (createProposal mean st id requesterID requestedID patientsIDs keyID modulo)
      st).table q = st.table q := by
  unfold createProposal
  cases hr : resolveConditions st (splitComma patientsIDs) with
  | error e => simp [ledgerAfter]
  | ok ms =>
    cases hp : st.putErr id with
    | some m => simp [putState, hp, Except.mapError, ledgerAfter]
    | none => simp [putState, hp, Except.mapError, ledgerAfter, stubPut, h]

lemma createResult_frame {q : String}
    (keyUpdate : String → String → String → String → String) (st : Stub)
    (proposalID firstToken secondToken keyID modulo : String)
    (h : q ≠ "RESULT" ++ firstDigitRun proposalID) :
    (ledgerAfter
      (createResult keyUpdate st proposalID firstToken secondToken keyID modulo)
      st).table q = st.table q := by
  unfold createResult
  cases hf : findProposal st proposalID with
  | error e => simp [ledgerAfter]
  | ok p =>
    cases hp : st.putErr ("RESULT" ++ firstDigitRun proposalID) with
    | some m => simp [putState, hp, Except.mapError, ledgerAfter]
    | none => simp [putState, hp, Except.mapError, ledgerAfter, stubPut, h]

/-- C8: for all valid id and field values, CreatePatient followed by
FindPatient on that id succeeds and returns a Patient whose fields equal
those supplied to CreatePatient (round-trip), provided the stub's write and
read at that key do not themselves fail. -/
theorem createPatient_findPatient_roundtrip (st : Stub)
    (id name pre diag status keyID : String)
    (hput : st.putErr id = none) (hget : st.getErr id = none) :
    createPatient st id name pre diag status keyID =
      .ok (stubPut st id (.patientB ⟨name, pre, diag, status, keyID⟩)) ∧
    findPatient (stubPut st id (.patientB ⟨name, pre, diag, status, keyID⟩)) id =
      .ok ⟨name, pre, diag, status, keyID⟩ := by
  constructor
  · simp [createPatient, putState, hput, Except.mapError, stubPut]
  · simp [findPatient, stubPut, hget, decodePatient, unmarshalPatientE]

/-- Witness for C8 at a concrete input. -/
theorem createPatient_findPatient_roundtrip_witness :
    createPatient emptyStub "p1" "n" "c" "d" "s" "k" =
      .ok (stubPut emptyStub "p1" (.patientB ⟨"n", "c", "d", "s", "k"⟩)) ∧
    findPatient (stubPut emptyStub "p1" (.patientB ⟨"n", "c", "d", "s", "k"⟩)) "p1" =
      .ok ⟨"n", "c", "d", "s", "k"⟩ :=
  createPatient_findPatient_roundtrip emptyStub "p1" "n" "c" "d" "s" "k" rfl rfl

/-- C9: UpdatePatient on an id with no stored record fails with the
does-not-exist error and leaves the whole world state unchanged. -/
theorem updatePatient_missing_notFound (st : Stub)
    (id name pre diag status keyID : String)
    (hget : st.getErr id = none) (hnone : st.table id = none) :
    updatePatient st id name pre diag status keyID = .error (.notFound id) ∧
    ledgerAfter (updatePatient st id name pre diag status keyID) st = st := by
  have h1 : updatePatient st id name pre diag status keyID = .error (.notFound id) := by
    simp [updatePatient, findPatient, hget, hnone]
  exact ⟨h1, by rw [h1]; rfl⟩

/-- Witness for C9 at a concrete input. -/
theorem updatePatient_missing_notFound_witness :
    updatePatient emptyStub "p9" "n" "c" "d" "s" "k" = .error (.notFound "p9") ∧
    ledgerAfter (updatePatient emptyStub "p9" "n" "c" "d" "s" "k") emptyStub =
      emptyStub :=
  updatePatient_missing_notFound emptyStub "p9" "n" "c" "d" "s" "k" rfl rfl

/-- C10: every mutating operation writes at most one ledger key.
CreatePatient, UpdatePatient and CreateProposal touch only the id supplied by
the caller, CreateResult touches only the derived result id; every other key
holds exactly what it held before the call, on success and on failure. -/
theorem mutators_single_key_frame :
    (∀ (st : Stub) (id name pre diag status keyID q : String), q ≠ id →
      (ledgerAfter (createPatient st id name pre diag status keyID) st).table q =
        st.table q) ∧
    (∀ (st : Stub) (id name pre diag status keyID q : String), q ≠ id →
      (ledgerAfter (updatePatient st id name pre diag status keyID) st).table q =
        st.table q) ∧
    (∀ (mean : String → List String → String) (st : Stub)
      (id requesterID requestedID patientsIDs keyID modulo q : String), q ≠ id →
      (ledgerAfter
        (createProposal mean st id requesterID requestedID patientsIDs keyID modulo)
        st).table q = st.table q) ∧
    (∀ (keyUpdate : String → String → String → String → String) (st : Stub)
      (proposalID firstToken secondToken keyID modulo q : String),
      q ≠ "RESULT" ++ firstDigitRun proposalID →
      (ledgerAfter
        (createResult keyUpdate st proposalID firstToken secondToken keyID modulo)
        st).table q = st.table q) :=
  ⟨fun st id n p d s k q h => createPatient_frame st n p d s k h,
   fun st id n p d s k q h => updatePatient_frame st n p d s k h,
   fun mean st id a b c k m q h => createProposal_frame mean st a b c k m h,
   fun ku st pid a b k m q h => createResult_frame ku st pid a b k m h⟩

/-- Witness for C10 at a concrete input. -/
theorem mutators_single_key_frame_witness :
    (ledgerAfter (createPatient emptyStub "p1" "n" "c" "d" "s" "k") emptyStub).table
        "other" = emptyStub.table "other" ∧
    (ledgerAfter (createResult (fun _ _ _ _ => "w") emptyStub "P7" "a" "b" "k" "m")
        emptyStub).table "other" = emptyStub.table "other" :=
  ⟨mutators_single_key_frame.1 emptyStub "p1" "n" "c" "d" "s" "k" "other"
      (by decide),
   mutators_single_key_frame.2.2.2 (fun _ _ _ _ => "w") emptyStub "P7" "a" "b" "k"
      "m" "other" (by decide)⟩

lemma resolveConditions_error_of_first {st : Stub} {e : CCErr} :
    ∀ (first : List String) (bad : String) (rest : List String),
    (∀ pid ∈ first, ∃ p, findPatient st pid = .ok p) →
    findPatient st bad = .error e →
    resolveConditions st (first ++ bad :: rest) = .error e := by
  intro first
  induction first with
  | nil =>
    intro bad rest _ hbad
    simp [resolveConditions, hbad]
  | cons pid tl ih =>
    intro bad rest hok hbad
    obtain ⟨p, hp⟩ := hok pid (List.mem_cons_self pid tl)
    have htl : resolveConditions st (tl ++ bad :: rest) = .error e :=
      ih bad rest (fun q hq => hok q (List.mem_cons_of_mem pid hq)) hbad
    simp [resolveConditions, hp, htl]

lemma resolveConditions_ok_of_forall₂ {st : Stub} :
    ∀ {pids : List String} {ps : List Patient},
    List.Forall₂ (fun pid p => findPatient st pid = .ok p) pids ps →
    resolveConditions st pids = .ok (ps.map Patient.preExistingConditions) := by
  intro pids ps h
  induction h with
  | nil => simp [resolveConditions]
  | cons hd tl ih => simp [resolveConditions, hd, ih]

/-- C1: when the comma-split subject list has a first entry whose FindPatient
fails (all earlier entries resolve), CreateProposal returns exactly that
error (a does-not-exist error when the id is simply missing) and writes no
Proposal: a proposal id that was absent before the call is still absent
afterwards. -/
theorem createProposal_failFast (mean : String → List String → String)
    (st : Stub) (id requesterID requestedID patientsIDs keyID modulo : String)
    (first : List String) (bad : String) (rest : List String) (e : CCErr)
    (hsplit : splitComma patientsIDs = first ++ bad :: rest)
    (hok : ∀ pid ∈ first, ∃ p, findPatient st pid = .ok p)
    (hbad : findPatient st bad = .error e) :
    createProposal mean st id requesterID requestedID patientsIDs keyID modulo =
      .error e ∧
    (st.getErr bad = none → st.table bad = none → e = .notFound bad) ∧
    (st.table id = none →
      (ledgerAfter
        (createProposal mean st id requesterID requestedID patientsIDs keyID modulo)
        st).table id = none) := by
  have hres : resolveConditions st (splitComma patientsIDs) = .error e := by
    rw [hsplit]
    exact resolveConditions_error_of_first first bad rest hok hbad
  have h1 : createProposal mean st id requesterID requestedID patientsIDs keyID
      modulo = .error e := by
    simp [createProposal, hres]
  refine ⟨h1, ?_, ?_⟩
  · intro hge htb
    rw [findPatient, hge, htb] at hbad
    exact (Except.error.inj hbad).symm
  · intro htb
    rw [h1]
    exact htb

/-- Witness for C1: the subject list "s1,s2,s3" where s1 is stored and s2 is
missing; the call surfaces the does-not-exist error for s2 and the ledger
still has nothing at the proposal id. -/
theorem createProposal_failFast_witness :
    createProposal (fun _ ms => String.join ms) (stubOf [("s1", .patientB ⟨"n", "c1", "d", "s", "k"⟩)])
        "P1" "r" "q" "s1,s2,s3" "k" "m" = .error (.notFound "s2") ∧
    (ledgerAfter
      (createProposal (fun _ ms => String.join ms)
        (stubOf [("s1", .patientB ⟨"n", "c1", "d", "s", "k"⟩)])
        "P1" "r" "q" "s1,s2,s3" "k" "m")
      (stubOf [("s1", .patientB ⟨"n", "c1", "d", "s", "k"⟩)])).table "P1" = none := by
  have h := createProposal_failFast (fun _ ms => String.join ms)
    (stubOf [("s1", .patientB ⟨"n", "c1", "d", "s", "k"⟩)])
    "P1" "r" "q" "s1,s2,s3" "k" "m" ["s1"] "s2" ["s3"] (.notFound "s2")
    (by decide)
    (by
      intro pid hp
      have : pid = "s1" := by
        cases hp with
        | head => rfl
        | tail _ hmem => cases hmem
      subst this
      exact ⟨⟨"n", "c1", "d", "s", "k"⟩, rfl⟩)
    rfl
  exact ⟨h.1, h.2.2 rfl⟩

/-- C4: when every comma-split subject id resolves, CreateProposal passes the
conditions ciphertexts, in input order, together with the modulus to the
mean oracle, and stores at the proposal id a Proposal carrying the oracle's
output as Value, the original arguments for the other fields, and not the
resolved ciphertext list. -/
theorem createProposal_success (mean : String → List String → String)
    (st : Stub) (id requesterID requestedID patientsIDs keyID modulo : String)
    (ps : List Patient)
    (hres : List.Forall₂ (fun pid p => findPatient st pid = .ok p)
      (splitComma patientsIDs) ps)
    (hput : st.putErr id = none) :
    createProposal mean st id requesterID requestedID patientsIDs keyID modulo =
      .ok (stubPut st id (.proposalB ⟨requesterID, requestedID, patientsIDs,
        keyID, mean modulo (ps.map Patient.preExistingConditions)⟩)) ∧
    (stubPut st id (.proposalB ⟨requesterID, requestedID, patientsIDs, keyID,
        mean modulo (ps.map Patient.preExistingConditions)⟩)).table id =
      some (.proposalB ⟨requesterID, requestedID, patientsIDs, keyID,
        mean modulo (ps.map Patient.preExistingConditions)⟩) := by
  constructor
  · simp [createProposal, resolveConditions_ok_of_forall₂ hres, putState, hput,
      Except.mapError, stubPut]
  · simp [stubPut]

/-- Witness for C4: three stored records with ciphertexts c1, c2, c3 and a
mean stub that returns v exactly on (m, [c1, c2, c3]); the Proposal stored at
P1 has Value v. -/
theorem createProposal_success_witness :
    createProposal
        (fun modulo ms => if modulo == "m" && ms == ["c1", "c2", "c3"] then "v" else "x")
        (stubOf [("s1", .patientB ⟨"n1", "c1", "d", "s", "k"⟩),
                 ("s2", .patientB ⟨"n2", "c2", "d", "s", "k"⟩),
                 ("s3", .patientB ⟨"n3", "c3", "d", "s", "k"⟩)])
        "P1" "r" "q" "s1,s2,s3" "k" "m" =
      .ok (stubPut
        (stubOf [("s1", .patientB ⟨"n1", "c1", "d", "s", "k"⟩),
                 ("s2", .patientB ⟨"n2", "c2", "d", "s", "k"⟩),
                 ("s3", .patientB ⟨"n3", "c3", "d", "s", "k"⟩)])
        "P1" (.proposalB ⟨"r", "q", "s1,s2,s3", "k", "v"⟩)) := by
  have h := createProposal_success
    (fun modulo ms => if modulo == "m" && ms == ["c1", "c2", "c3"] then "v" else "x")
    (stubOf [("s1", .patientB ⟨"n1", "c1", "d", "s", "k"⟩),
             ("s2", .patientB ⟨"n2", "c2", "d", "s", "k"⟩),
             ("s3", .patientB ⟨"n3", "c3", "d", "s", "k"⟩)])
    "P1" "r" "q" "s1,s2,s3" "k" "m"
    [⟨"n1", "c1", "d", "s", "k"⟩, ⟨"n2", "c2", "d", "s", "k"⟩,
     ⟨"n3", "c3", "d", "s", "k"⟩]
    (by
      have hsplit : splitComma "s1,s2,s3" = ["s1", "s2", "s3"] := by decide
      rw [hsplit]
      exact .cons rfl (.cons rfl (.cons rfl .nil)))
    rfl
  exact h.1

lemma takeDigits_all_digits : ∀ l : List Char, ∀ c ∈ takeDigits l, c.isDigit = true := by
  intro l
  induction l with
  | nil => intro c hc; cases hc
  | cons d ds ih =>
    intro c hc
    by_cases hd : d.isDigit
    · rw [takeDigits, if_pos hd] at hc
      cases hc with
      | head => exact hd
      | tail _ hmem => exact ih c hmem
    · rw [takeDigits, if_neg hd] at hc
      cases hc

lemma takeDigits_decomp : ∀ l : List Char, ∃ rest, l = takeDigits l ++ rest ∧
    ∀ c, rest.head? = some c → c.isDigit = false := by
  intro l
  induction l with
  | nil => exact ⟨[], rfl, fun c hc => by cases hc⟩
  | cons d ds ih =>
    by_cases hd : d.isDigit
    · obtain ⟨rest, hr, hh⟩ := ih
      refine ⟨rest, ?_, hh⟩
      rw [takeDigits, if_pos hd, List.cons_append]
      exact congrArg (d :: ·) hr
    · refine ⟨d :: ds, ?_, ?_⟩
      · rw [takeDigits, if_neg hd]; rfl
      · intro c hc
        simp only [List.head?, Option.some.injEq] at hc
        rw [hc] at hd
        exact eq_false_of_ne_true hd

lemma firstRun_all_digits : ∀ l : List Char, ∀ c ∈ firstRun l, c.isDigit = true := by
  intro l
  induction l with
  | nil => intro c hc; cases hc
  | cons d ds ih =>
    intro c hc
    by_cases hd : d.isDigit
    · rw [firstRun, if_pos hd] at hc
      cases hc with
      | head => exact hd
      | tail _ hmem => exact takeDigits_all_digits ds c hmem
    · rw [firstRun, if_neg hd] at hc
      exact ih c hc

lemma firstRun_decomp : ∀ l : List Char, ∃ before after,
    l = before ++ firstRun l ++ after ∧
    (∀ c ∈ before, c.isDigit = false) ∧
    (∀ c, after.head? = some c → c.isDigit = false) ∧
    (firstRun l = [] → after = []) := by
  intro l
  induction l with
  | nil =>
    refine ⟨[], [], rfl, ?_, ?_, fun _ => rfl⟩
    · intro c hc; cases hc
    · intro c hc; cases hc
  | cons d ds ih =>
    by_cases hd : d.isDigit
    · obtain ⟨rest, hr, hh⟩ := takeDigits_decomp ds
      refine ⟨[], rest, ?_, ?_, hh, ?_⟩
      · rw [firstRun, if_pos hd, List.nil_append, List.cons_append]
        exact congrArg (d :: ·) hr
      · intro c hc; cases hc
      · intro habs
        rw [firstRun, if_pos hd] at habs
        cases habs
    · obtain ⟨before, after, hsplit, hbefore, hafter, hemp⟩ := ih
      refine ⟨d :: before, after, ?_, ?_, hafter, ?_⟩
      · rw [firstRun, if_neg hd, List.cons_append]
        exact congrArg (d :: ·) hsplit
      · intro c hc
        cases hc with
        | head => exact eq_false_of_ne_true hd
        | tail _ hmem => exact hbefore c hmem
      · intro habs
        rw [firstRun, if_neg hd] at habs
        exact hemp habs

lemma createResult_ok {st : Stub} {proposalID : String} {P : Proposal}
    (keyUpdate : String → String → String → String → String)
    (firstToken secondToken keyID modulo : String)
    (hget : st.getErr proposalID = none)
    (htab : st.table proposalID = some (.proposalB P))
    (hput : st.putErr ("RESULT" ++ firstDigitRun proposalID) = none) :
    createResult keyUpdate st proposalID firstToken secondToken keyID modulo =
      .ok (stubPut st ("RESULT" ++ firstDigitRun proposalID)
        (.resultB ⟨proposalID, keyID,
          keyUpdate modulo firstToken secondToken P.value⟩)) := by
  simp [createResult, findProposal, hget, htab, decodeProposal,
    unmarshalProposalE, putState, hput, Except.mapError, stubPut]

/-- C2: against an existing Proposal, CreateResult stores the Result at the
key RESULT followed by the first digit run of proposalID, a pure function of
proposalID alone; the digit run consists only of decimal digits, is the
leftmost maximal such run inside proposalID (no digit before it, no digit
right after it), and is empty exactly when proposalID has no digits. -/
theorem createResult_derivedId
    (keyUpdate : String → String → String → String → String) (st : Stub)
    (proposalID firstToken secondToken keyID modulo : String) (P : Proposal)
    (hget : st.getErr proposalID = none)
    (htab : st.table proposalID = some (.proposalB P))
    (hput : st.putErr ("RESULT" ++ firstDigitRun proposalID) = none) :
    createResult keyUpdate st proposalID firstToken secondToken keyID modulo =
      .ok (stubPut st ("RESULT" ++ firstDigitRun proposalID)
        (.resultB ⟨proposalID, keyID,
          keyUpdate modulo firstToken secondToken P.value⟩)) ∧
    (∀ c ∈ (firstDigitRun proposalID).data, c.isDigit = true) ∧
    (∃ before after, proposalID.data =
        before ++ (firstDigitRun proposalID).data ++ after ∧
      (∀ c ∈ before, c.isDigit = false) ∧
      (∀ c, after.head? = some c → c.isDigit = false) ∧
      ((firstDigitRun proposalID).data = [] → after = [])) ∧
    ((∀ c ∈ proposalID.data, c.isDigit = false) → firstDigitRun proposalID = "") := by
  have hdata : (firstDigitRun proposalID).data = firstRun proposalID.data := rfl
  refine ⟨?_, ?_, ?_, ?_⟩
  · exact createResult_ok keyUpdate firstToken secondToken keyID modulo hget htab hput
  · rw [hdata]
    exact firstRun_all_digits proposalID.data
  · rw [hdata]
    exact firstRun_decomp proposalID.data
  · intro hnone
    obtain ⟨before, after, hsplit, _, _, _⟩ := firstRun_decomp proposalID.data
    have : ∀ c ∈ firstRun proposalID.data, c ∈ proposalID.data := by
      intro c hc
      rw [hsplit]
      exact List.mem_append.mpr (Or.inl (List.mem_append.mpr (Or.inr hc)))
    cases hrun : firstRun proposalID.data with
    | nil =>
      show (firstRun proposalID.data).asString = ""
      rw [hrun]
      rfl
    | cons c cs =>
      have hcmem : c ∈ firstRun proposalID.data := by
        rw [hrun]; exact List.mem_cons_self c cs
      have hdig : c.isDigit = true := firstRun_all_digits proposalID.data c hcmem
      have hnot : c.isDigit = false := hnone c (this c hcmem)
      rw [hdig] at hnot
      cases hnot

/-- Witness for C2: CreateResult on proposal id P7x2 stores the Result at
RESULT7 with the key-switch oracle's output for the proposal's value. -/
theorem createResult_derivedId_witness :
    createResult (fun m a b c => String.join [m, a, b, c])
        (stubOf [("P7x2", .proposalB ⟨"r", "q", "s1", "k", "v"⟩)])
        "P7x2" "tA" "tB" "k2" "m" =
      .ok (stubPut (stubOf [("P7x2", .proposalB ⟨"r", "q", "s1", "k", "v"⟩)])
        "RESULT7" (.resultB ⟨"P7x2", "k2", String.join ["m", "tA", "tB", "v"]⟩)) :=
  (createResult_derivedId (fun m a b c => String.join [m, a, b, c])
    (stubOf [("P7x2", .proposalB ⟨"r", "q", "s1", "k", "v"⟩)])
    "P7x2" "tA" "tB" "k2" "m" ⟨"r", "q", "s1", "k", "v"⟩ rfl rfl rfl).1

/-- C7: two stored Proposals whose ids have the same first digit run produce
Results at the same derived id; running CreateResult against the first and
then against the second leaves at that shared key exactly the second call's
Result, overwriting the first (last write wins, no collision guard). -/
theorem createResult_collision_lastWriteWins
    (ku ku' : String → String → String → String → String) (st : Stub)
    (pid1 pid2 t1 t2 t1' t2' key1 key2 mod1 mod2 : String) (P1 P2 : Proposal)
    (hget1 : st.getErr pid1 = none)
    (htab1 : st.table pid1 = some (.proposalB P1))
    (hget2 : st.getErr pid2 = none)
    (htab2 : st.table pid2 = some (.proposalB P2))
    (hrun : firstDigitRun pid2 = firstDigitRun pid1)
    (hput : st.putErr ("RESULT" ++ firstDigitRun pid1) = none)
    (hne : pid2 ≠ "RESULT" ++ firstDigitRun pid1) :
    "RESULT" ++ firstDigitRun pid2 = "RESULT" ++ firstDigitRun pid1 ∧
    createResult ku st pid1 t1 t2 key1 mod1 =
      .ok (stubPut st ("RESULT" ++ firstDigitRun pid1)
        (.resultB ⟨pid1, key1, ku mod1 t1 t2 P1.value⟩)) ∧
    (stubPut st ("RESULT" ++ firstDigitRun pid1)
        (.resultB ⟨pid1, key1, ku mod1 t1 t2 P1.value⟩)).table
        ("RESULT" ++ firstDigitRun pid1) =
      some (.resultB ⟨pid1, key1, ku mod1 t1 t2 P1.value⟩) ∧
    createResult ku'
        (stubPut st ("RESULT" ++ firstDigitRun pid1)
          (.resultB ⟨pid1, key1, ku mod1 t1 t2 P1.value⟩))
        pid2 t1' t2' key2 mod2 =
      .ok (stubPut
        (stubPut st ("RESULT" ++ firstDigitRun pid1)
          (.resultB ⟨pid1, key1, ku mod1 t1 t2 P1.value⟩))
        ("RESULT" ++ firstDigitRun pid1)
        (.resultB ⟨pid2, key2, ku' mod2 t1' t2' P2.value⟩)) ∧
    (stubPut
        (stubPut st ("RESULT" ++ firstDigitRun pid1)
          (.resultB ⟨pid1, key1, ku mod1 t1 t2 P1.value⟩))
        ("RESULT" ++ firstDigitRun pid1)
        (.resultB ⟨pid2, key2, ku' mod2 t1' t2' P2.value⟩)).table
        ("RESULT" ++ firstDigitRun pid1) =
      some (.resultB ⟨pid2, key2, ku' mod2 t1' t2' P2.value⟩) := by
  have hkey : "RESULT" ++ firstDigitRun pid2 = "RESULT" ++ firstDigitRun pid1 :=
    congrArg ("RESULT" ++ ·) hrun
  have hget2' :
      (stubPut st ("RESULT" ++ firstDigitRun pid1)
        (.resultB ⟨pid1, key1, ku mod1 t1 t2 P1.value⟩)).getErr pid2 = none := hget2
  have htab2' :
      (stubPut st ("RESULT" ++ firstDigitRun pid1)
        (.resultB ⟨pid1, key1, ku mod1 t1 t2 P1.value⟩)).table pid2 =
        some (.proposalB P2) := by
    rw [stubPut_table_ne st _ hne]
    exact htab2
  have hput2' :
      (stubPut st ("RESULT" ++ firstDigitRun pid1)
        (.resultB ⟨pid1, key1, ku mod1 t1 t2 P1.value⟩)).putErr
        ("RESULT" ++ firstDigitRun pid2) = none := by
    show st.putErr ("RESULT" ++ firstDigitRun pid2) = none
    rw [hkey]
    exact hput
  have h2 : createResult ku'
      (stubPut st ("RESULT" ++ firstDigitRun pid1)
        (.resultB ⟨pid1, key1, ku mod1 t1 t2 P1.value⟩))
      pid2 t1' t2' key2 mod2 =
      .ok (stubPut
        (stubPut st ("RESULT" ++ firstDigitRun pid1)
          (.resultB ⟨pid1, key1, ku mod1 t1 t2 P1.value⟩))
        ("RESULT" ++ firstDigitRun pid2)
        (.resultB ⟨pid2, key2, ku' mod2 t1' t2' P2.value⟩)) :=
    createResult_ok ku' t1' t2' key2 mod2 hget2' htab2' hput2'
  rw [hkey] at h2
  exact ⟨hkey, createResult_ok ku t1 t2 key1 mod1 hget1 htab1 hput,
    stubPut_table_self _ _ _, h2, stubPut_table_self _ _ _⟩

/-- Witness for C7: proposals P7 and X7y collide at RESULT7 and the second
Result overwrites the first. -/
theorem createResult_collision_lastWriteWins_witness :
    "RESULT" ++ firstDigitRun "X7y" = "RESULT" ++ firstDigitRun "P7" ∧
    (stubPut
        (stubPut (stubOf [("P7", .proposalB ⟨"r", "q", "s1", "k", "v1"⟩),
                          ("X7y", .proposalB ⟨"r2", "q2", "s2", "k", "v2"⟩)])
          ("RESULT" ++ firstDigitRun "P7") (.resultB ⟨"P7", "ka", "w1"⟩))
        ("RESULT" ++ firstDigitRun "P7") (.resultB ⟨"X7y", "kb", "w2"⟩)).table
        ("RESULT" ++ firstDigitRun "P7") =
      some (.resultB ⟨"X7y", "kb", "w2"⟩) := by
  have h := createResult_collision_lastWriteWins
    (fun _ _ _ _ => "w1") (fun _ _ _ _ => "w2")
    (stubOf [("P7", .proposalB ⟨"r", "q", "s1", "k", "v1"⟩),
             ("X7y", .proposalB ⟨"r2", "q2", "s2", "k", "v2"⟩)])
    "P7" "X7y" "a" "b" "a2" "b2" "ka" "kb" "m" "m2"
    ⟨"r", "q", "s1", "k", "v1"⟩ ⟨"r2", "q2", "s2", "k", "v2"⟩
    rfl rfl rfl rfl rfl rfl (by decide)
  exact ⟨h.1, h.2.2.2.2⟩

/-- Counterexample for C3: at key p1 the stored bytes are raw non-JSON, yet
FindPatient, FindProposal and FindResult all return successfully with the
zero-valued entity instead of failing with a decode error. -/
theorem find_decodeError_cex :
    findPatient (stubOf [("p1", .rawB "not json")]) "p1" = .ok Patient.zero ∧
    findProposal (stubOf [("p1", .rawB "not json")]) "p1" = .ok Proposal.zero ∧
    findResult (stubOf [("p1", .rawB "not json")]) "p1" = .ok Result.zero := by
  refine ⟨rfl, rfl, rfl⟩

/-- C3 amended: when the stored bytes cannot be parsed, FindPatient,
FindProposal and FindResult do not fail; the Unmarshal error is discarded and
each returns success with the zero-valued entity. -/
theorem find_ignores_unparseable (st : Stub) (id s : String)
    (hget : st.getErr id = none) (htab : st.table id = some (.rawB s)) :
    findPatient st id = .ok Patient.zero ∧
    findProposal st id = .ok Proposal.zero ∧
    findResult st id = .ok Result.zero := by
  refine ⟨?_, ?_, ?_⟩
  · simp [findPatient, hget, htab, decodePatient, unmarshalPatientE]
  · simp [findProposal, hget, htab, decodeProposal, unmarshalProposalE]
  · simp [findResult, hget, htab, decodeResult, unmarshalResultE]

/-- Witness for C3 amended at a concrete input. -/
theorem find_ignores_unparseable_witness :
    findPatient (stubOf [("q1", .rawB "garbage")]) "q1" = .ok Patient.zero ∧
    findProposal (stubOf [("q1", .rawB "garbage")]) "q1" = .ok Proposal.zero ∧
    findResult (stubOf [("q1", .rawB "garbage")]) "q1" = .ok Result.zero :=
  find_ignores_unparseable (stubOf [("q1", .rawB "garbage")]) "q1" "garbage" rfl rfl

/-- Counterexample for C5: a Proposal at P1 whose value is already set to v
is changed by a second CreateProposal call against the same id, which re-runs
aggregation and overwrites the stored value with the new oracle output v2. -/
theorem proposal_overwritten_cex :
    (stubOf [("P1", .proposalB ⟨"r", "q", "s1", "k", "v"⟩),
             ("s1", .patientB ⟨"n", "c", "d", "s", "k"⟩)]).table "P1" =
      some (.proposalB ⟨"r", "q", "s1", "k", "v"⟩) ∧
    (ledgerAfter
      (createProposal (fun _ _ => "v2")
        (stubOf [("P1", .proposalB ⟨"r", "q", "s1", "k", "v"⟩),
                 ("s1", .patientB ⟨"n", "c", "d", "s", "k"⟩)])
        "P1" "r" "q" "s1" "k" "m")
      (stubOf [("P1", .proposalB ⟨"r", "q", "s1", "k", "v"⟩),
               ("s1", .patientB ⟨"n", "c", "d", "s", "k"⟩)])).table "P1" =
      some (.proposalB ⟨"r", "q", "s1", "k", "v2"⟩) := by
  refine ⟨rfl, rfl⟩

/-- C5 amended: a stored Proposal is untouched by every operation that
targets a different key — CreatePatient, UpdatePatient and CreateProposal
with another id, and CreateResult whose derived result id differs from the
proposal's id — but nothing enforces immutability against calls that target
the proposal's own key. -/
theorem proposal_unchanged_by_other_keys (st : Stub) (pid : String)
    (P : Proposal) (htab : st.table pid = some (.proposalB P)) :
    (∀ id name pre diag status keyID, id ≠ pid →
      (ledgerAfter (createPatient st id name pre diag status keyID) st).table pid =
        some (.proposalB P)) ∧
    (∀ id name pre diag status keyID, id ≠ pid →
      (ledgerAfter (updatePatient st id name pre diag status keyID) st).table pid =
        some (.proposalB P)) ∧
    (∀ (mean : String → List String → String)
      (id requesterID requestedID patientsIDs keyID modulo : String), id ≠ pid →
      (ledgerAfter
        (createProposal mean st id requesterID requestedID patientsIDs keyID modulo)
        st).table pid = some (.proposalB P)) ∧
    (∀ (keyUpdate : String → String → String → String → String)
      (proposalID firstToken secondToken keyID modulo : String),
      "RESULT" ++ firstDigitRun proposalID ≠ pid →
      (ledgerAfter
        (createResult keyUpdate st proposalID firstToken secondToken keyID modulo)
        st).table pid = some (.proposalB P)) := by
  refine ⟨?_, ?_, ?_, ?_⟩
  · intro id n p d s k h
    rw [createPatient_frame st n p d s k (Ne.symm h)]
    exact htab
  · intro id n p d s k h
    rw [updatePatient_frame st n p d s k (Ne.symm h)]
    exact htab
  · intro mean id a b c k m h
    rw [createProposal_frame mean st a b c k m (Ne.symm h)]
    exact htab
  · intro ku prid a b k m h
    rw [createResult_frame ku st prid a b k m (Ne.symm h)]
    exact htab

/-- Witness for C5 amended at a concrete input. -/
theorem proposal_unchanged_by_other_keys_witness :
    (ledgerAfter
      (createPatient (stubOf [("P1", .proposalB ⟨"r", "q", "s1", "k", "v"⟩)])
        "p2" "n" "c" "d" "s" "k")
      (stubOf [("P1", .proposalB ⟨"r", "q", "s1", "k", "v"⟩)])).table "P1" =
      some (.proposalB ⟨"r", "q", "s1", "k", "v"⟩) ∧
    (ledgerAfter
      (createResult (fun _ _ _ _ => "w")
        (stubOf [("P1", .proposalB ⟨"r", "q", "s1", "k", "v"⟩)])
        "P1" "a" "b" "k2" "m")
      (stubOf [("P1", .proposalB ⟨"r", "q", "s1", "k", "v"⟩)])).table "P1" =
      some (.proposalB ⟨"r", "q", "s1", "k", "v"⟩) := by
  have h := proposal_unchanged_by_other_keys
    (stubOf [("P1", .proposalB ⟨"r", "q", "s1", "k", "v"⟩)]) "P1"
    ⟨"r", "q", "s1", "k", "v"⟩ rfl
  exact ⟨h.1 "p2" "n" "c" "d" "s" "k" (by decide),
    h.2.2.2 (fun _ _ _ _ => "w") "P1" "a" "b" "k2" "m" (by decide)⟩

/-- Counterexample for C6: with an oracle stub that reports failure by
returning the string ORACLE FAILURE for every input, CreateProposal and
CreateResult still succeed, storing that string as the value, instead of
failing with an oracle error: the phe calls have no error channel. -/
theorem oracle_failure_not_surfaced_cex :
    createProposal (fun _ _ => "ORACLE FAILURE")
        (stubOf [("s1", .patientB ⟨"n", "c", "d", "s", "k"⟩)])
        "P2" "r" "q" "s1" "k" "m" =
      .ok (stubPut (stubOf [("s1", .patientB ⟨"n", "c", "d", "s", "k"⟩)])
        "P2" (.proposalB ⟨"r", "q", "s1", "k", "ORACLE FAILURE"⟩)) ∧
    createResult (fun _ _ _ _ => "ORACLE FAILURE")
        (stubOf [("P1", .proposalB ⟨"r", "q", "s1", "k", "v"⟩)])
        "P1" "tA" "tB" "k2" "m" =
      .ok (stubPut (stubOf [("P1", .proposalB ⟨"r", "q", "s1", "k", "v"⟩)])
        "RESULT1" (.resultB ⟨"P1", "k2", "ORACLE FAILURE"⟩)) := by
  refine ⟨rfl, rfl⟩

/-- C6 amended: the crypto oracle cannot cause a failure — whether
CreateProposal or CreateResult fails, and with which error, is entirely
independent of the oracle function supplied; the error outcomes come only
from the find step and the final PutState. -/
theorem errors_independent_of_oracle :
    (∀ (mean₁ mean₂ : String → List String → String) (st : Stub)
      (id requesterID requestedID patientsIDs keyID modulo : String) (e : CCErr),
      createProposal mean₁ st id requesterID requestedID patientsIDs keyID modulo =
          .error e ↔
      createProposal mean₂ st id requesterID requestedID patientsIDs keyID modulo =
          .error e) ∧
    (∀ (ku₁ ku₂ : String → String → String → String → String) (st : Stub)
      (proposalID firstToken secondToken keyID modulo : String) (e : CCErr),
      createResult ku₁ st proposalID firstToken secondToken keyID modulo =
          .error e ↔
      createResult ku₂ st proposalID firstToken secondToken keyID modulo =
          .error e) := by
  constructor
  · intro mean₁ mean₂ st id a b c k m e
    unfold createProposal
    cases hr : resolveConditions st (splitComma c) with
    | error e' => exact Iff.rfl
    | ok ms =>
      cases hp : st.putErr id with
      | some msg => simp [putState, hp, Except.mapError]
      | none => simp [putState, hp, Except.mapError]
  · intro ku₁ ku₂ st pid a b k m e
    unfold createResult
    cases hf : findProposal st pid with
    | error e' => exact Iff.rfl
    | ok p =>
      cases hp : st.putErr ("RESULT" ++ firstDigitRun pid) with
      | some msg => simp [putState, hp, Except.mapError]
      | none => simp [putState, hp, Except.mapError]

end SimpleContract
